import Mathlib

/-!
Verification of the log-frame protocol decoders of the RC-RL repository.

Byte buffers are modelled as `List Nat` (one element per byte, each in 0..255).
Python operations used by the scripts are embedded as follows:
- `int.from_bytes(bs, 'big')` is `bytesToNatBE`;
- `data[a:b]` (with non-negative bounds) is `pySlice data a b`;
- `data.find(sub, start)` is `findSubFrom data sub start`, returning `none`
  where Python returns `-1`;
- Python unbounded ints with `>>`, `&` are `Nat` with `>>>`, `&&&`.
-/

/-- Big-endian interpretation of a byte list, mirroring Python
int.from_bytes(bs, 'big'). -/
def bytesToNatBE (bs : List Nat) : Nat :=
  bs.foldl (fun acc b => acc * 256 + b) 0

/-- Python slice data[a:b] for 0 ≤ a ≤ b. -/
def pySlice (data : List Nat) (a b : Nat) : List Nat :=
  (data.drop a).take (b - a)

/-- The 4 ASCII bytes of the literal b"LOG:". -/
def LOGmarker : List Nat := [76, 79, 71, 58]

/-- The 4 ASCII bytes of the literal b"END\n". -/
def ENDmarker : List Nat := [69, 78, 68, 10]

/-- Does the needle match the haystack byte-for-byte at its head (and fit
entirely inside it)?  Executable equivalent of "needle occurs here". -/
def matchesAt (needle hay : List Nat) : Bool :=
  match needle, hay with
  | [], _ => true
  | _ :: _, [] => false
  | a :: as, b :: bs => a == b && matchesAt as bs

/-- Fuel-driven scan underlying `findSubFrom`; tries positions start,
start+1, ... while fuel lasts. -/
def findSubAux (data needle : List Nat) : Nat → Nat → Option Nat
  | _, 0 => none
  | start, fuel + 1 =>
    if start + needle.length ≤ data.length then
      if matchesAt needle (data.drop start) then some start
      else findSubAux data needle (start + 1) fuel
    else none

/-- Python data.find(needle, start): least index ≥ start at which needle
occurs entirely inside data, or `none`. -/
def findSubFrom (data needle : List Nat) (start : Nat) : Option Nat :=
  findSubAux data needle start (data.length + 1 - start)

namespace ReceiveImageAndLogs

/-- One decoded 32-bit performance-log entry, as built by decode_log_entry
in receive_image_and_logs.py. -/
structure LogEntry where
  raw : Nat
  core_busy : Nat
  fifo1_load : Nat
  fifo2_load : Nat
  fifo3_load : Nat
  core0_divider : Nat
  core1_divider : Nat
  core2_divider : Nat
  core3_divider : Nat
deriving Repr, DecidableEq

/-- decode_log_entry from receive_image_and_logs.py (lines 53-65). -/
def decode_log_entry (entry_val : Nat) : LogEntry :=
  { raw := entry_val
    core_busy := (entry_val >>> 28) &&& 0xF
    fifo1_load := (entry_val >>> 25) &&& 0x7
    fifo2_load := (entry_val >>> 22) &&& 0x7
    fifo3_load := (entry_val >>> 19) &&& 0x7
    core0_divider := (entry_val >>> 15) &&& 0xF
    core1_divider := (entry_val >>> 11) &&& 0xF
    core2_divider := (entry_val >>> 7) &&& 0xF
    core3_divider := (entry_val >>> 3) &&& 0xF }

/-- The successful result dictionary of parse_logs. -/
structure LogResult where
  count : Nat
  entries : List LogEntry
  expected_size : Nat
  actual_size : Nat
  complete : Bool
  has_end : Bool
deriving Repr, DecidableEq

/-- parse_logs returns either (result, None) or (None, error-message). -/
inductive ParseOutcome where
  | err (msg : String)
  | ok (r : LogResult)
deriving Repr, DecidableEq

/-- The entry-extraction loop of parse_logs (lines 86-95): reads consecutive
4-byte big-endian words starting at pos, breaking at the first word that
does not fit entirely inside the buffer. -/
def parseEntries (data : List Nat) : Nat → Nat → List LogEntry
  | _, 0 => []
  | pos, n + 1 =>
    if pos + 4 ≤ data.length then
      decode_log_entry (bytesToNatBE (pySlice data pos (pos + 4)))
        :: parseEntries data (pos + 4) n
    else []

/-- parse_logs from receive_image_and_logs.py (lines 67-108). -/
def parse_logs (data : List Nat) : ParseOutcome :=
  match findSubFrom data LOGmarker 0 with
  | none => .err "No LOG: header found"
  | some log_start =>
    if data.length < log_start + 6 then .err "Incomplete log header"
    else
      let count := bytesToNatBE (pySlice data (log_start + 4) (log_start + 6))
      let expected_size := 4 + 2 + count * 4 + 4
      let actual_size := data.length - log_start
      let entries := parseEntries data (log_start + 6) count
      let has_end := (findSubFrom data ENDmarker log_start).isSome
      .ok { count := count
            entries := entries
            expected_size := expected_size
            actual_size := actual_size
            complete := decide (expected_size ≤ actual_size) && has_end
            has_end := has_end }

end ReceiveImageAndLogs

namespace ReceiveLogsThenImage

/-- One decoded entry as built by decode_log_entry in
receive_logs_then_image.py (lines 24-36). -/
structure LogEntry where
  raw : Nat
  core_busy : Nat
  fifo1_load : Nat
  fifo2_load : Nat
  fifo3_load : Nat
  core0_div : Nat
  core1_div : Nat
  core2_div : Nat
  core3_div : Nat
deriving Repr, DecidableEq

/-- decode_log_entry from receive_logs_then_image.py (lines 24-36). -/
def decode_log_entry (entry_val : Nat) : LogEntry :=
  { raw := entry_val
    core_busy := (entry_val >>> 28) &&& 0xF
    fifo1_load := (entry_val >>> 25) &&& 0x7
    fifo2_load := (entry_val >>> 22) &&& 0x7
    fifo3_load := (entry_val >>> 19) &&& 0x7
    core0_div := (entry_val >>> 15) &&& 0xF
    core1_div := (entry_val >>> 11) &&& 0xF
    core2_div := (entry_val >>> 7) &&& 0xF
    core3_div := (entry_val >>> 3) &&& 0xF }

/-- The entry loop of parse_logs in receive_logs_then_image.py
(lines 53-59): same positions, but entries that do not fit are skipped
without a break. -/
def parseEntriesSkip (data : List Nat) : Nat → Nat → List LogEntry
  | _, 0 => []
  | pos, n + 1 =>
    (if pos + 4 ≤ data.length then
      [decode_log_entry (bytesToNatBE (pySlice data pos (pos + 4)))]
    else []) ++ parseEntriesSkip data (pos + 4) n

/-- Successful result of parse_logs in receive_logs_then_image.py. -/
structure LogResult where
  log_start : Nat
  log_end : Nat
  count : Nat
  entries : List LogEntry
  has_end : Bool
  expected_size : Nat
deriving Repr, DecidableEq

/-- Outcome of parse_logs in receive_logs_then_image.py. -/
inductive ParseOutcome where
  | err (msg : String)
  | ok (r : LogResult)
deriving Repr, DecidableEq

/-- parse_logs from receive_logs_then_image.py (lines 38-71). -/
def parse_logs (data : List Nat) (start_pos : Nat) : ParseOutcome :=
  match findSubFrom data LOGmarker start_pos with
  | none => .err "No LOG: header"
  | some log_pos =>
    if data.length < log_pos + 6 then .err "Incomplete header"
    else
      let count := bytesToNatBE (pySlice data (log_pos + 4) (log_pos + 6))
      let expected_size := 4 + 2 + count * 4 + 4
      let entries := parseEntriesSkip data (log_pos + 6) count
      let end_pos := findSubFrom data ENDmarker log_pos
      .ok { log_start := log_pos
            log_end := match end_pos with
                       | none => log_pos + expected_size
                       | some e => e + 4
            count := count
            entries := entries
            has_end := end_pos.isSome
            expected_size := expected_size }

end ReceiveLogsThenImage

namespace CompleteReceiver

/-- One decoded entry as built by decode_log_entry in complete_receiver.py
(lines 47-77), including the per-core busy bits and the rl_enabled flag. -/
structure LogEntry where
  raw : Nat
  core_busy : Nat
  core0_busy : Nat
  core1_busy : Nat
  core2_busy : Nat
  core3_busy : Nat
  fifo1_load : Nat
  fifo2_load : Nat
  fifo3_load : Nat
  core0_div : Nat
  core1_div : Nat
  core2_div : Nat
  core3_div : Nat
  rl_enabled : Nat
deriving Repr, DecidableEq

/-- decode_log_entry from complete_receiver.py (lines 47-77). -/
def decode_log_entry (entry_val : Nat) : LogEntry :=
  { raw := entry_val
    core_busy := (entry_val >>> 28) &&& 0xF
    core0_busy := (entry_val >>> 31) &&& 0x1
    core1_busy := (entry_val >>> 30) &&& 0x1
    core2_busy := (entry_val >>> 29) &&& 0x1
    core3_busy := (entry_val >>> 28) &&& 0x1
    fifo1_load := (entry_val >>> 25) &&& 0x7
    fifo2_load := (entry_val >>> 22) &&& 0x7
    fifo3_load := (entry_val >>> 19) &&& 0x7
    core0_div := (entry_val >>> 15) &&& 0xF
    core1_div := (entry_val >>> 11) &&& 0xF
    core2_div := (entry_val >>> 7) &&& 0xF
    core3_div := (entry_val >>> 3) &&& 0xF
    rl_enabled := (entry_val >>> 2) &&& 0x1 }

/-- The entry loop of extract_performance_logs (lines 250-263): breaks at
the first entry that does not fit entirely inside the buffer. -/
def parseEntries (data : List Nat) : Nat → Nat → List LogEntry
  | _, 0 => []
  | pos, n + 1 =>
    if data.length < pos + 4 then []
    else
      decode_log_entry (bytesToNatBE (pySlice data pos (pos + 4)))
        :: parseEntries data (pos + 4) n

/-- extract_performance_logs from complete_receiver.py (lines 212-263);
returns the decoded entries, or the empty list when no header was found
or the count field is unreadable. -/
def extract_performance_logs (data : List Nat) (start_offset : Nat) :
    List LogEntry :=
  match findSubFrom data LOGmarker start_offset with
  | none => []
  | some log_start =>
    if data.length < log_start + 6 then []
    else
      let count := bytesToNatBE (pySlice data (log_start + 4) (log_start + 6))
      parseEntries data (log_start + 6) count

end CompleteReceiver

namespace PythonCorrect

/-- One parsed entry as built by parse_log_entry in python_correct.py
(lines 129-162).  The busy flags are booleans taken from the core_busy
nibble; note the field-to-bit-position assignment differs from the other
scripts. -/
structure LogEntry where
  core0_busy : Bool
  core1_busy : Bool
  core2_busy : Bool
  core3_busy : Bool
  fifo1_load : Nat
  fifo2_load : Nat
  fifo3_load : Nat
  core0_divider : Nat
  core1_divider : Nat
  core2_divider : Nat
  core3_divider : Nat
deriving Repr, DecidableEq

/-- parse_log_entry from python_correct.py (lines 129-162): unpacks the
4 entry bytes big-endian, then assigns fifo3_load from bits [27:25],
fifo1_load from bits [21:19], and the dividers in reversed core order. -/
def parse_log_entry (entry_bytes : List Nat) : LogEntry :=
  let value := bytesToNatBE entry_bytes
  let core_busy := (value >>> 28) &&& 0xF
  { core0_busy := (core_busy &&& 0x1) != 0
    core1_busy := (core_busy &&& 0x2) != 0
    core2_busy := (core_busy &&& 0x4) != 0
    core3_busy := (core_busy &&& 0x8) != 0
    fifo1_load := (value >>> 19) &&& 0x7
    fifo2_load := (value >>> 22) &&& 0x7
    fifo3_load := (value >>> 25) &&& 0x7
    core0_divider := (value >>> 3) &&& 0xF
    core1_divider := (value >>> 7) &&& 0xF
    core2_divider := (value >>> 11) &&& 0xF
    core3_divider := (value >>> 15) &&& 0xF }

end PythonCorrect

namespace ExtendedTest

/-- The eight values computed by the inline field extraction in
extended_test.py main (lines 108-115). -/
structure Fields where
  core_busy : Nat
  fifo1_load : Nat
  fifo2_load : Nat
  fifo3_load : Nat
  core0_div : Nat
  core1_div : Nat
  core2_div : Nat
  core3_div : Nat
deriving Repr, DecidableEq

/-- The inline per-entry field extraction in extended_test.py main
(lines 108-115). -/
def decodeFields (entry_val : Nat) : Fields :=
  { core_busy := (entry_val >>> 28) &&& 0xF
    fifo1_load := (entry_val >>> 25) &&& 0x7
    fifo2_load := (entry_val >>> 22) &&& 0x7
    fifo3_load := (entry_val >>> 19) &&& 0x7
    core0_div := (entry_val >>> 15) &&& 0xF
    core1_div := (entry_val >>> 11) &&& 0xF
    core2_div := (entry_val >>> 7) &&& 0xF
    core3_div := (entry_val >>> 3) &&& 0xF }

end ExtendedTest

/-- Modelled from the spec: the repository contains no encoder (only the
device firmware produces frames), so this is BitfieldCodec.encode as
specified in §4.1: each field is masked to its declared width with
value &&& ((1 <<< width) - 1) and shifted into its bit position; the
masked fields occupy disjoint bit ranges, so combining them by addition
packs the word. -/
def encode_entry (cb f1 f2 f3 d0 d1 d2 d3 rl : Nat) : Nat :=
  (cb &&& 0xF) <<< 28 + (f1 &&& 0x7) <<< 25 + (f2 &&& 0x7) <<< 22 +
    (f3 &&& 0x7) <<< 19 + (d0 &&& 0xF) <<< 15 + (d1 &&& 0xF) <<< 11 +
    (d2 &&& 0xF) <<< 7 + (d3 &&& 0xF) <<< 3 + (rl &&& 0x1) <<< 2

/-- The 2-byte big-endian encoding of a count below 2^16. -/
def beBytes2 (n : Nat) : List Nat := [n / 256, n % 256]

/-- The 4-byte big-endian encoding of a word below 2^32. -/
def beBytes4 (w : Nat) : List Nat :=
  [w / 16777216 % 256, w / 65536 % 256, w / 256 % 256, w % 256]

/-- Concatenated 4-byte big-endian encodings of a list of words. -/
def wordsToBytes : List Nat → List Nat
  | [] => []
  | w :: ws => beBytes4 w ++ wordsToBytes ws

/-! ### Helper lemmas -/

theorem matchesAt_append (l t : List Nat) : matchesAt l (l ++ t) = true := by
  induction l with
  | nil => rfl
  | cons a as ih => simp [matchesAt, ih]

theorem matchesAt_length_le {n h : List Nat} (hm : matchesAt n h = true) :
    n.length ≤ h.length := by
  induction n generalizing h with
  | nil => simp
  | cons a as ih =>
    cases h with
    | nil => simp [matchesAt] at hm
    | cons b bs =>
      simp only [matchesAt, Bool.and_eq_true] at hm
      simpa using ih hm.2

theorem matchesAt_fits {data needle : List Nat} {j : Nat} (hne : needle ≠ [])
    (hj : matchesAt needle (data.drop j) = true) :
    j + needle.length ≤ data.length ∧ 1 ≤ needle.length := by
  have h1 : needle.length ≤ data.length - j := by
    simpa using matchesAt_length_le hj
  have h2 : 1 ≤ needle.length := by
    cases needle with
    | nil => exact absurd rfl hne
    | cons a as => simp
  omega

theorem findSubAux_eq_none {data needle : List Nat} (start fuel : Nat)
    (hne : needle ≠ [])
    (h : ∀ i, i < data.length → start ≤ i → matchesAt needle (data.drop i) = false) :
    findSubAux data needle start fuel = none := by
  induction fuel generalizing start with
  | zero => rfl
  | succ fuel ih =>
    simp only [findSubAux]
    by_cases hfit : start + needle.length ≤ data.length
    · have hlen : 1 ≤ needle.length := by
        cases needle with
        | nil => exact absurd rfl hne
        | cons a as => simp
      have hstart : start < data.length := by omega
      rw [if_pos hfit, h start hstart (Nat.le_refl start)]
      exact ih (start + 1) (fun i hi hsi => h i hi (by omega))
    · rw [if_neg hfit]

theorem findSubAux_isSome {data needle : List Nat} {j : Nat} (start fuel : Nat)
    (hne : needle ≠ []) (hj : matchesAt needle (data.drop j) = true)
    (hsj : start ≤ j) (hfuel : j + 1 ≤ start + fuel) :
    (findSubAux data needle start fuel).isSome = true := by
  induction fuel generalizing start with
  | zero => omega
  | succ fuel ih =>
    obtain ⟨hfits, hlen⟩ := matchesAt_fits hne hj
    simp only [findSubAux]
    rw [if_pos (by omega)]
    by_cases hms : matchesAt needle (data.drop start) = true
    · rw [if_pos hms]; rfl
    · rw [if_neg hms]
      have hne2 : start ≠ j := fun he => hms (he ▸ hj)
      exact ih (start + 1) (by omega) (by omega)

theorem findSubFrom_eq_none {data needle : List Nat} (start : Nat)
    (hne : needle ≠ [])
    (h : ∀ i, i < data.length → start ≤ i → matchesAt needle (data.drop i) = false) :
    findSubFrom data needle start = none :=
  findSubAux_eq_none start _ hne h

theorem findSubFrom_isSome {data needle : List Nat} {j : Nat} (start : Nat)
    (hne : needle ≠ []) (hj : matchesAt needle (data.drop j) = true)
    (hsj : start ≤ j) :
    (findSubFrom data needle start).isSome = true := by
  have := (matchesAt_fits hne hj).1
  have := (matchesAt_fits hne hj).2
  exact findSubAux_isSome start _ hne hj hsj (by omega)

theorem findSubFrom_self {data needle : List Nat} (start : Nat)
    (hne : needle ≠ []) (hs : matchesAt needle (data.drop start) = true) :
    findSubFrom data needle start = some start := by
  obtain ⟨hfits, hlen⟩ := matchesAt_fits hne hs
  have hfuel : data.length + 1 - start = (data.length - start) + 1 := by omega
  rw [findSubFrom, hfuel]
  simp only [findSubAux]
  rw [if_pos (by omega), if_pos hs]

theorem findSubFrom_exists_of_isSome {data needle : List Nat} {start : Nat}
    (hne : needle ≠ [])
    (h : (findSubFrom data needle start).isSome = true) :
    ∃ i, i < data.length ∧ start ≤ i ∧ matchesAt needle (data.drop i) = true := by
  by_contra hno
  push_neg at hno
  have hall : ∀ i, i < data.length → start ≤ i →
      matchesAt needle (data.drop i) = false := by
    intro i hi hsi
    have := hno i hi hsi
    exact Bool.eq_false_iff.mpr this
  rw [findSubFrom_eq_none start hne hall] at h
  simp at h

/-- The head of LOG-prefixed data matches the marker. -/
theorem matchesAt_LOG (rest : List Nat) :
    matchesAt LOGmarker (LOGmarker ++ rest) = true :=
  matchesAt_append _ _

theorem bytesToNatBE_two (a b : Nat) : bytesToNatBE [a, b] = a * 256 + b := by
  simp [bytesToNatBE, List.foldl]

theorem bytesToNatBE_beBytes2 (n : Nat) :
    bytesToNatBE (beBytes2 n) = n := by
  simp only [beBytes2, bytesToNatBE, List.foldl]
  omega

theorem bytesToNatBE_beBytes4 {w : Nat} (h : w < 4294967296) :
    bytesToNatBE (beBytes4 w) = w := by
  simp only [beBytes4, bytesToNatBE, List.foldl]
  omega

theorem beBytes4_length (w : Nat) : (beBytes4 w).length = 4 := rfl

theorem beBytes2_length (n : Nat) : (beBytes2 n).length = 2 := rfl

theorem wordsToBytes_length (ws : List Nat) :
    (wordsToBytes ws).length = 4 * ws.length := by
  induction ws with
  | nil => rfl
  | cons w ws ih => simp [wordsToBytes, beBytes4, ih]; omega

theorem pySlice_of_append (pre mid post : List Nat) :
    pySlice (pre ++ mid ++ post) pre.length (pre.length + mid.length) = mid := by
  have h1 : pre ++ mid ++ post = pre ++ (mid ++ post) := by
    simp [List.append_assoc]
  rw [pySlice, h1, List.drop_left]
  have h2 : pre.length + mid.length - pre.length = mid.length := by omega
  rw [h2, List.take_left]

theorem drop_append_full (front rest : List Nat) :
    (front ++ rest).drop front.length = rest := List.drop_left front rest

theorem parseEntries_length_le (data : List Nat) (pos n : Nat) :
    (ReceiveImageAndLogs.parseEntries data pos n).length ≤ n := by
  induction n generalizing pos with
  | zero => simp [ReceiveImageAndLogs.parseEntries]
  | succ n ih =>
    simp only [ReceiveImageAndLogs.parseEntries]
    by_cases h : pos + 4 ≤ data.length
    · rw [if_pos h]
      simpa using ih (pos + 4)
    · rw [if_neg h]; simp

theorem parseEntries_words (ws : List Nat) :
    ∀ (pre suf : List Nat), (∀ w ∈ ws, w < 4294967296) →
      ReceiveImageAndLogs.parseEntries (pre ++ wordsToBytes ws ++ suf)
          pre.length ws.length
        = ws.map ReceiveImageAndLogs.decode_log_entry := by
  induction ws with
  | nil => intro pre suf _; rfl
  | cons w ws ih =>
    intro pre suf hw
    have hassoc : pre ++ wordsToBytes (w :: ws) ++ suf
        = pre ++ beBytes4 w ++ (wordsToBytes ws ++ suf) := by
      simp [wordsToBytes, List.append_assoc]
    rw [hassoc, List.length_cons]
    simp only [ReceiveImageAndLogs.parseEntries]
    have hcond : pre.length + 4
        ≤ (pre ++ beBytes4 w ++ (wordsToBytes ws ++ suf)).length := by
      simp [beBytes4]
    rw [if_pos hcond]
    have hsl : pySlice (pre ++ beBytes4 w ++ (wordsToBytes ws ++ suf))
        pre.length (pre.length + 4) = beBytes4 w := by
      simpa using pySlice_of_append pre (beBytes4 w) (wordsToBytes ws ++ suf)
    rw [hsl, bytesToNatBE_beBytes4 (hw w (by simp))]
    have hpre : pre.length + 4 = (pre ++ beBytes4 w).length := by
      simp [beBytes4]
    have hassoc2 : pre ++ beBytes4 w ++ (wordsToBytes ws ++ suf)
        = (pre ++ beBytes4 w) ++ wordsToBytes ws ++ suf := by
      simp [List.append_assoc]
    rw [List.map_cons, hpre, hassoc2,
      ih (pre ++ beBytes4 w) suf (fun x hx => hw x (by simp [hx]))]

theorem parseEntries_trunc (ws : List Nat) :
    ∀ (pre : List Nat) (m : Nat), (∀ w ∈ ws, w < 4294967296) →
      m < 4 * ws.length →
      ReceiveImageAndLogs.parseEntries (pre ++ (wordsToBytes ws).take m)
          pre.length ws.length
        = (ws.take (m / 4)).map ReceiveImageAndLogs.decode_log_entry := by
  induction ws with
  | nil => intro pre m _ hm; simp at hm
  | cons w ws ih =>
    intro pre m hw hm
    rw [List.length_cons]
    simp only [ReceiveImageAndLogs.parseEntries]
    by_cases h4 : m < 4
    · have hlen : ((wordsToBytes (w :: ws)).take m).length = m := by
        rw [List.length_take, wordsToBytes_length]
        simp; omega
      have hcond : ¬ (pre.length + 4
          ≤ (pre ++ (wordsToBytes (w :: ws)).take m).length) := by
        rw [List.length_append, hlen]; omega
      rw [if_neg hcond]
      have : m / 4 = 0 := by omega
      rw [this]
      simp
    · have htake : (wordsToBytes (w :: ws)).take m
          = beBytes4 w ++ (wordsToBytes ws).take (m - 4) := by
        show (beBytes4 w ++ wordsToBytes ws).take m = _
        rw [List.take_append_eq_append_take]
        have h1 : (beBytes4 w).take m = beBytes4 w :=
          List.take_of_length_le (by rw [beBytes4_length]; omega)
        rw [h1, beBytes4_length]
      rw [htake]
      have hcond : pre.length + 4
          ≤ (pre ++ (beBytes4 w ++ (wordsToBytes ws).take (m - 4))).length := by
        simp [beBytes4]
      have hassoc : pre ++ (beBytes4 w ++ (wordsToBytes ws).take (m - 4))
          = pre ++ beBytes4 w ++ (wordsToBytes ws).take (m - 4) := by
        simp [List.append_assoc]
      rw [hassoc] at hcond ⊢
      rw [if_pos hcond]
      have hsl : pySlice (pre ++ beBytes4 w ++ (wordsToBytes ws).take (m - 4))
          pre.length (pre.length + 4) = beBytes4 w := by
        simpa using pySlice_of_append pre (beBytes4 w) ((wordsToBytes ws).take (m - 4))
      rw [hsl, bytesToNatBE_beBytes4 (hw w (by simp))]
      have hdiv : m / 4 = (m - 4) / 4 + 1 := by omega
      rw [hdiv]
      have htk : (w :: ws).take ((m - 4) / 4 + 1) = w :: ws.take ((m - 4) / 4) := rfl
      rw [htk, List.map_cons]
      have hpre : pre.length + 4 = (pre ++ beBytes4 w).length := by
        simp [beBytes4]
      have hassoc2 : pre ++ beBytes4 w ++ (wordsToBytes ws).take (m - 4)
          = (pre ++ beBytes4 w) ++ (wordsToBytes ws).take (m - 4) := rfl
      rw [hpre, hassoc2,
        ih (pre ++ beBytes4 w) (m - 4) (fun x hx => hw x (by simp [hx])) (by simp at hm; omega)]

theorem LOGmarker_ne_nil : LOGmarker ≠ [] := by simp [LOGmarker]

theorem ENDmarker_ne_nil : ENDmarker ≠ [] := by simp [ENDmarker]

/-- parse_logs on any buffer of the shape header ++ count ++ tail: the
header is found at offset 0 and the count is read from bytes 4..6; the
entries, sizes and completeness flag are as computed by the source. -/
theorem parse_logs_wellformed (N : Nat) (tail : List Nat) :
    ReceiveImageAndLogs.parse_logs (LOGmarker ++ beBytes2 N ++ tail)
      = .ok { count := N
              entries := ReceiveImageAndLogs.parseEntries
                  (LOGmarker ++ beBytes2 N ++ tail) 6 N
              expected_size := 4 + 2 + N * 4 + 4
              actual_size := 6 + tail.length
              complete := decide (4 + 2 + N * 4 + 4 ≤ 6 + tail.length)
                  && (findSubFrom (LOGmarker ++ beBytes2 N ++ tail) ENDmarker 0).isSome
              has_end := (findSubFrom (LOGmarker ++ beBytes2 N ++ tail) ENDmarker 0).isSome } := by
  have hassoc : LOGmarker ++ beBytes2 N ++ tail
      = LOGmarker ++ (beBytes2 N ++ tail) := by simp [List.append_assoc]
  have hfind : findSubFrom (LOGmarker ++ beBytes2 N ++ tail) LOGmarker 0 = some 0 := by
    apply findSubFrom_self 0 LOGmarker_ne_nil
    rw [List.drop_zero, hassoc]
    exact matchesAt_LOG _
  have hlen : (LOGmarker ++ beBytes2 N ++ tail).length = 6 + tail.length := by
    simp [LOGmarker, beBytes2]; omega
  have hslice : pySlice (LOGmarker ++ beBytes2 N ++ tail) 4 6 = beBytes2 N := by
    have h := pySlice_of_append LOGmarker (beBytes2 N) tail
    simpa [LOGmarker, beBytes2] using h
  simp only [ReceiveImageAndLogs.parse_logs, hfind]
  rw [if_neg (by omega)]
  simp only [Nat.zero_add, Nat.sub_zero, hslice, bytesToNatBE_beBytes2, hlen]

/-- C1: for every buffer consisting of the 4 ASCII bytes "LOG:", a 16-bit
big-endian count N, exactly N 4-byte big-endian words, and the 4 footer
bytes "END\n", parsing with search start 0 returns complete = true,
declared count = N, and an entry list of length N whose i-th element is
decode_log_entry of the i-th source word. -/
theorem c1_exact_frame (N : Nat) (words : List Nat)
    (hN : N < 65536) (hlen : words.length = N)
    (hw : ∀ w ∈ words, w < 4294967296) :
    ReceiveImageAndLogs.parse_logs
        (LOGmarker ++ beBytes2 N ++ (wordsToBytes words ++ ENDmarker))
      = .ok { count := N
              entries := words.map ReceiveImageAndLogs.decode_log_entry
              expected_size := 4 + 2 + N * 4 + 4
              actual_size := 4 + 2 + N * 4 + 4
              complete := true
              has_end := true } := by
  subst hlen
  rw [parse_logs_wellformed words.length (wordsToBytes words ++ ENDmarker)]
  have htail : (wordsToBytes words ++ ENDmarker).length = 4 * words.length + 4 := by
    simp [wordsToBytes_length, ENDmarker]
  have hfront : LOGmarker ++ beBytes2 words.length ++ (wordsToBytes words ++ ENDmarker)
      = (LOGmarker ++ beBytes2 words.length ++ wordsToBytes words) ++ ENDmarker := by
    simp [List.append_assoc]
  have hmatch : matchesAt ENDmarker
      ((LOGmarker ++ beBytes2 words.length ++ (wordsToBytes words ++ ENDmarker)).drop
        (LOGmarker ++ beBytes2 words.length ++ wordsToBytes words).length) = true := by
    rw [hfront, drop_append_full]
    have h := matchesAt_append ENDmarker []
    rwa [List.append_nil] at h
  have hend : (findSubFrom
      (LOGmarker ++ beBytes2 words.length ++ (wordsToBytes words ++ ENDmarker))
      ENDmarker 0).isSome = true :=
    findSubFrom_isSome 0 ENDmarker_ne_nil hmatch (Nat.zero_le _)
  have hentries : ReceiveImageAndLogs.parseEntries
      (LOGmarker ++ beBytes2 words.length ++ (wordsToBytes words ++ ENDmarker))
      6 words.length
      = words.map ReceiveImageAndLogs.decode_log_entry := by
    have hpre : (6 : Nat) = (LOGmarker ++ beBytes2 words.length).length := by
      simp [LOGmarker, beBytes2]
    have hshape : LOGmarker ++ beBytes2 words.length ++ (wordsToBytes words ++ ENDmarker)
        = (LOGmarker ++ beBytes2 words.length) ++ wordsToBytes words ++ ENDmarker := by
      simp [List.append_assoc]
    rw [hshape, hpre]
    exact parseEntries_words words (LOGmarker ++ beBytes2 words.length) ENDmarker hw
  have hdec : decide (4 + 2 + words.length * 4 + 4
      ≤ 6 + (wordsToBytes words ++ ENDmarker).length) = true :=
    decide_eq_true (by rw [htail]; omega)
  have harith : 6 + (wordsToBytes words ++ ENDmarker).length
      = 4 + 2 + words.length * 4 + 4 := by
    rw [htail]; omega
  rw [hentries, hdec, hend, harith]
  rfl

/-- Witness: C1 applied to the concrete 3-word frame of the spec's
"exact frame" test vector. -/
theorem c1_exact_frame_witness :
    (3 < 65536 ∧ ([305419896, 3735928559, 0] : List Nat).length = 3 ∧
      (∀ w ∈ ([305419896, 3735928559, 0] : List Nat), w < 4294967296)) ∧
    ReceiveImageAndLogs.parse_logs
        (LOGmarker ++ beBytes2 3 ++ (wordsToBytes [305419896, 3735928559, 0] ++ ENDmarker))
      = .ok { count := 3
              entries := [305419896, 3735928559, 0].map
                  ReceiveImageAndLogs.decode_log_entry
              expected_size := 4 + 2 + 3 * 4 + 4
              actual_size := 4 + 2 + 3 * 4 + 4
              complete := true
              has_end := true } :=
  ⟨⟨by decide, by decide, by decide⟩,
    c1_exact_frame 3 [305419896, 3735928559, 0] (by decide) (by decide) (by decide)⟩

/-- C3 counterexample: on the buffer "LOG:" ++ count 0 ++ junk byte 88 ++
"END\n" the parser reports complete = true even though the footer does not
stand immediately after the count field (byte 6 is 88, not the footer), so
"complete = true only if the footer is immediately after the last entry"
fails. -/
theorem c3_counterexample :
    ReceiveImageAndLogs.parse_logs [76, 79, 71, 58, 0, 0, 88, 69, 78, 68, 10]
      = .ok { count := 0, entries := [], expected_size := 10, actual_size := 11,
              complete := true, has_end := true }
    ∧ pySlice [76, 79, 71, 58, 0, 0, 88, 69, 78, 68, 10] 6 10 ≠ ENDmarker := by
  constructor
  · decide
  · decide

/-- C3 (amended): when the header is found at s and the count is readable,
complete = true iff the buffer holds at least expected_size bytes from the
header AND "END\n" occurs somewhere at or after the header — not
necessarily immediately after the last entry. -/
theorem c3_amended_complete_iff (data : List Nat) (s : Nat)
    (h1 : findSubFrom data LOGmarker 0 = some s)
    (h2 : ¬ data.length < s + 6) :
    ∃ r : ReceiveImageAndLogs.LogResult,
      ReceiveImageAndLogs.parse_logs data = .ok r ∧
      (r.complete = true ↔
        (r.expected_size ≤ data.length - s ∧
          ∃ i, i < data.length ∧ s ≤ i ∧
            matchesAt ENDmarker (data.drop i) = true)) := by
  have hok : ReceiveImageAndLogs.parse_logs data = .ok
      { count := bytesToNatBE (pySlice data (s + 4) (s + 6))
        entries := ReceiveImageAndLogs.parseEntries data (s + 6)
            (bytesToNatBE (pySlice data (s + 4) (s + 6)))
        expected_size := 4 + 2 + bytesToNatBE (pySlice data (s + 4) (s + 6)) * 4 + 4
        actual_size := data.length - s
        complete := decide (4 + 2 + bytesToNatBE (pySlice data (s + 4) (s + 6)) * 4 + 4
            ≤ data.length - s) && (findSubFrom data ENDmarker s).isSome
        has_end := (findSubFrom data ENDmarker s).isSome } := by
    simp only [ReceiveImageAndLogs.parse_logs, h1]
    rw [if_neg h2]
  refine ⟨_, hok, ?_⟩
  show (decide _ && (findSubFrom data ENDmarker s).isSome) = true ↔ _
  rw [Bool.and_eq_true, decide_eq_true_eq]
  constructor
  · rintro ⟨ha, hb⟩
    exact ⟨ha, findSubFrom_exists_of_isSome ENDmarker_ne_nil hb⟩
  · rintro ⟨ha, i, hi, hsi, hmi⟩
    exact ⟨ha, findSubFrom_isSome s ENDmarker_ne_nil hmi hsi⟩

/-- Witness: C3 (amended) applied to the zero-count frame with the footer
immediately after the count. -/
theorem c3_amended_witness :
    (findSubFrom [76, 79, 71, 58, 0, 0, 69, 78, 68, 10] LOGmarker 0 = some 0 ∧
      ¬ ([76, 79, 71, 58, 0, 0, 69, 78, 68, 10] : List Nat).length < 0 + 6) ∧
    (∃ r : ReceiveImageAndLogs.LogResult,
      ReceiveImageAndLogs.parse_logs [76, 79, 71, 58, 0, 0, 69, 78, 68, 10] = .ok r ∧
      (r.complete = true ↔
        (r.expected_size ≤ ([76, 79, 71, 58, 0, 0, 69, 78, 68, 10] : List Nat).length - 0 ∧
          ∃ i, i < ([76, 79, 71, 58, 0, 0, 69, 78, 68, 10] : List Nat).length ∧ 0 ≤ i ∧
            matchesAt ENDmarker (([76, 79, 71, 58, 0, 0, 69, 78, 68, 10] : List Nat).drop i)
              = true))) :=
  ⟨⟨by decide, by decide⟩,
    c3_amended_complete_iff [76, 79, 71, 58, 0, 0, 69, 78, 68, 10] 0
      (by decide) (by decide)⟩

/-- C4: a frame with all declared entries present but no "END\n" occurrence
anywhere at or after the header still yields every decoded entry as an
ordinary ok value, with complete = false. -/
theorem c4_missing_footer (N : Nat) (words : List Nat)
    (hN : N < 65536) (hlen : words.length = N)
    (hw : ∀ w ∈ words, w < 4294967296)
    (hnoend : ∀ i, i < (LOGmarker ++ beBytes2 N ++ wordsToBytes words).length →
      matchesAt ENDmarker ((LOGmarker ++ beBytes2 N ++ wordsToBytes words).drop i)
        = false) :
    ReceiveImageAndLogs.parse_logs (LOGmarker ++ beBytes2 N ++ wordsToBytes words)
      = .ok { count := N
              entries := words.map ReceiveImageAndLogs.decode_log_entry
              expected_size := 4 + 2 + N * 4 + 4
              actual_size := 6 + 4 * N
              complete := false
              has_end := false } := by
  subst hlen
  rw [parse_logs_wellformed words.length (wordsToBytes words)]
  have hend : findSubFrom (LOGmarker ++ beBytes2 words.length ++ wordsToBytes words)
      ENDmarker 0 = none :=
    findSubFrom_eq_none 0 ENDmarker_ne_nil (fun i hi _ => hnoend i hi)
  have hentries : ReceiveImageAndLogs.parseEntries
      (LOGmarker ++ beBytes2 words.length ++ wordsToBytes words) 6 words.length
      = words.map ReceiveImageAndLogs.decode_log_entry := by
    have hpre : (6 : Nat) = (LOGmarker ++ beBytes2 words.length).length := by
      simp [LOGmarker, beBytes2]
    have hshape : LOGmarker ++ beBytes2 words.length ++ wordsToBytes words
        = (LOGmarker ++ beBytes2 words.length) ++ wordsToBytes words ++ [] := by
      simp
    rw [hshape, hpre]
    exact parseEntries_words words (LOGmarker ++ beBytes2 words.length) [] hw
  rw [hentries, hend, wordsToBytes_length]
  simp only [Option.isSome_none, Bool.and_false]

/-- Witness: C4 applied to a one-entry frame with the footer removed. -/
theorem c4_missing_footer_witness :
    (1 < 65536 ∧ ([305419896] : List Nat).length = 1 ∧
      (∀ w ∈ ([305419896] : List Nat), w < 4294967296) ∧
      (∀ i, i < (LOGmarker ++ beBytes2 1 ++ wordsToBytes [305419896]).length →
        matchesAt ENDmarker
          ((LOGmarker ++ beBytes2 1 ++ wordsToBytes [305419896]).drop i) = false)) ∧
    ReceiveImageAndLogs.parse_logs (LOGmarker ++ beBytes2 1 ++ wordsToBytes [305419896])
      = .ok { count := 1
              entries := [305419896].map ReceiveImageAndLogs.decode_log_entry
              expected_size := 4 + 2 + 1 * 4 + 4
              actual_size := 6 + 4 * 1
              complete := false
              has_end := false } :=
  ⟨⟨by decide, by decide, by decide, by decide⟩,
    c4_missing_footer 1 [305419896] (by decide) (by decide) (by decide) (by decide)⟩

/-- C5: a frame cut off m bytes into the entry area (m < 4N) yields exactly
the ⌊m/4⌋ fully contained entries, in order, with complete = false; the
straddling entry is dropped and no later entry is produced. -/
theorem c5_truncated_mid_entry (N m : Nat) (words : List Nat)
    (hN : N < 65536) (hlen : words.length = N)
    (hw : ∀ w ∈ words, w < 4294967296) (hm : m < 4 * N) :
    ∃ b : Bool, ReceiveImageAndLogs.parse_logs
        (LOGmarker ++ beBytes2 N ++ (wordsToBytes words).take m)
      = .ok { count := N
              entries := (words.take (m / 4)).map ReceiveImageAndLogs.decode_log_entry
              expected_size := 4 + 2 + N * 4 + 4
              actual_size := 6 + m
              complete := false
              has_end := b } := by
  subst hlen
  refine ⟨(findSubFrom (LOGmarker ++ beBytes2 words.length ++ (wordsToBytes words).take m)
      ENDmarker 0).isSome, ?_⟩
  rw [parse_logs_wellformed words.length ((wordsToBytes words).take m)]
  have htklen : ((wordsToBytes words).take m).length = m := by
    rw [List.length_take, wordsToBytes_length]
    omega
  have hentries : ReceiveImageAndLogs.parseEntries
      (LOGmarker ++ beBytes2 words.length ++ (wordsToBytes words).take m)
      6 words.length
      = (words.take (m / 4)).map ReceiveImageAndLogs.decode_log_entry := by
    have hpre : (6 : Nat) = (LOGmarker ++ beBytes2 words.length).length := by
      simp [LOGmarker, beBytes2]
    have hshape : LOGmarker ++ beBytes2 words.length ++ (wordsToBytes words).take m
        = (LOGmarker ++ beBytes2 words.length) ++ (wordsToBytes words).take m := by
      simp
    rw [hshape, hpre]
    exact parseEntries_trunc words (LOGmarker ++ beBytes2 words.length) m hw hm
  have hdec : decide (4 + 2 + words.length * 4 + 4
      ≤ 6 + ((wordsToBytes words).take m).length) = false :=
    decide_eq_false (by rw [htklen]; omega)
  rw [hentries, hdec, htklen]
  simp only [Bool.false_and]

/-- Witness: C5 applied to a 3-word frame cut 2 bytes into the third
entry (m = 10), recovering exactly 2 entries. -/
theorem c5_truncated_mid_entry_witness :
    (3 < 65536 ∧ ([17, 34, 51] : List Nat).length = 3 ∧
      (∀ w ∈ ([17, 34, 51] : List Nat), w < 4294967296) ∧ 10 < 4 * 3) ∧
    (∃ b : Bool, ReceiveImageAndLogs.parse_logs
        (LOGmarker ++ beBytes2 3 ++ (wordsToBytes [17, 34, 51]).take 10)
      = .ok { count := 3
              entries := ([17, 34, 51].take (10 / 4)).map
                  ReceiveImageAndLogs.decode_log_entry
              expected_size := 4 + 2 + 3 * 4 + 4
              actual_size := 6 + 10
              complete := false
              has_end := b }) :=
  ⟨⟨by decide, by decide, by decide, by decide⟩,
    c5_truncated_mid_entry 3 10 [17, 34, 51] (by decide) (by decide) (by decide) (by decide)⟩

/-- C7: when "LOG:" occurs nowhere at or after the search offset, the
parsers report the no-header outcome with zero entries as a returned
value: extract_performance_logs returns the empty list, and parse_logs
(whose search offset is fixed at 0) returns the no-header error value. -/
theorem c7_no_header (data : List Nat) (start : Nat)
    (h : ∀ i, i < data.length → start ≤ i →
      matchesAt LOGmarker (data.drop i) = false) :
    CompleteReceiver.extract_performance_logs data start = [] ∧
      (start = 0 → ReceiveImageAndLogs.parse_logs data
        = .err "No LOG: header found") := by
  have hfind : findSubFrom data LOGmarker start = none :=
    findSubFrom_eq_none start LOGmarker_ne_nil h
  constructor
  · simp only [CompleteReceiver.extract_performance_logs, hfind]
  · intro h0
    subst h0
    simp only [ReceiveImageAndLogs.parse_logs, hfind]

/-- Witness: C7 applied to a 3-byte buffer containing no "LOG:". -/
theorem c7_no_header_witness :
    (∀ i, i < ([0, 1, 2] : List Nat).length → 0 ≤ i →
      matchesAt LOGmarker (([0, 1, 2] : List Nat).drop i) = false) ∧
    (CompleteReceiver.extract_performance_logs [0, 1, 2] 0 = [] ∧
      (0 = 0 → ReceiveImageAndLogs.parse_logs [0, 1, 2]
        = .err "No LOG: header found")) :=
  ⟨by decide, c7_no_header [0, 1, 2] 0 (by decide)⟩

/-- C8: a readable header whose 2 count bytes are zero parses successfully
with an empty entry list, and the frame is reported complete when "END\n"
stands immediately after the count bytes. -/
theorem c8_zero_count (data : List Nat) (s : Nat)
    (h1 : findSubFrom data LOGmarker 0 = some s)
    (h2 : ¬ data.length < s + 6)
    (h3 : pySlice data (s + 4) (s + 6) = [0, 0]) :
    ∃ r : ReceiveImageAndLogs.LogResult,
      ReceiveImageAndLogs.parse_logs data = .ok r ∧ r.count = 0 ∧ r.entries = [] ∧
      (matchesAt ENDmarker (data.drop (s + 6)) = true → r.complete = true) := by
  have hok : ReceiveImageAndLogs.parse_logs data = .ok
      { count := bytesToNatBE (pySlice data (s + 4) (s + 6))
        entries := ReceiveImageAndLogs.parseEntries data (s + 6)
            (bytesToNatBE (pySlice data (s + 4) (s + 6)))
        expected_size := 4 + 2 + bytesToNatBE (pySlice data (s + 4) (s + 6)) * 4 + 4
        actual_size := data.length - s
        complete := decide (4 + 2 + bytesToNatBE (pySlice data (s + 4) (s + 6)) * 4 + 4
            ≤ data.length - s) && (findSubFrom data ENDmarker s).isSome
        has_end := (findSubFrom data ENDmarker s).isSome } := by
    simp only [ReceiveImageAndLogs.parse_logs, h1]
    rw [if_neg h2]
  rw [h3] at hok
  have hzero : bytesToNatBE [0, 0] = 0 := rfl
  rw [hzero] at hok
  refine ⟨_, hok, rfl, rfl, ?_⟩
  intro hm
  have hfits := (matchesAt_fits ENDmarker_ne_nil hm).1
  have hlen4 : ENDmarker.length = 4 := rfl
  rw [hlen4] at hfits
  show (decide _ && (findSubFrom data ENDmarker s).isSome) = true
  have hsome : (findSubFrom data ENDmarker s).isSome = true :=
    findSubFrom_isSome s ENDmarker_ne_nil hm (by omega)
  have hdec : decide (4 + 2 + 0 * 4 + 4 ≤ data.length - s) = true :=
    decide_eq_true (by omega)
  rw [hsome, hdec]
  rfl

/-- Witness: C8 applied to the frame "LOG:" ++ count 0 ++ "END\n". -/
theorem c8_zero_count_witness :
    (findSubFrom [76, 79, 71, 58, 0, 0, 69, 78, 68, 10] LOGmarker 0 = some 0 ∧
      ¬ ([76, 79, 71, 58, 0, 0, 69, 78, 68, 10] : List Nat).length < 0 + 6 ∧
      pySlice [76, 79, 71, 58, 0, 0, 69, 78, 68, 10] (0 + 4) (0 + 6) = [0, 0]) ∧
    (∃ r : ReceiveImageAndLogs.LogResult,
      ReceiveImageAndLogs.parse_logs [76, 79, 71, 58, 0, 0, 69, 78, 68, 10] = .ok r ∧
      r.count = 0 ∧ r.entries = [] ∧
      (matchesAt ENDmarker (([76, 79, 71, 58, 0, 0, 69, 78, 68, 10] : List Nat).drop (0 + 6))
          = true → r.complete = true)) :=
  ⟨⟨by decide, by decide, by decide⟩,
    c8_zero_count [76, 79, 71, 58, 0, 0, 69, 78, 68, 10] 0
      (by decide) (by decide) (by decide)⟩

/-- C9: on every input buffer parse_logs terminates with one of its three
structured outcomes (never more entries than declared), and the sentinel
word 0xDEADBEEF is decoded through the ordinary field masking like any
other word rather than rejected. -/
theorem c9_total_and_sentinel (data : List Nat) :
    (ReceiveImageAndLogs.parse_logs data = .err "No LOG: header found" ∨
     ReceiveImageAndLogs.parse_logs data = .err "Incomplete log header" ∨
     ∃ r, ReceiveImageAndLogs.parse_logs data = .ok r ∧
       r.entries.length ≤ r.count) ∧
    ReceiveImageAndLogs.decode_log_entry 3735928559
      = { raw := 3735928559, core_busy := 13, fifo1_load := 7, fifo2_load := 2,
          fifo3_load := 5, core0_divider := 11, core1_divider := 7,
          core2_divider := 13, core3_divider := 13 } := by
  constructor
  · cases hf : findSubFrom data LOGmarker 0 with
    | none =>
      left
      simp only [ReceiveImageAndLogs.parse_logs, hf]
    | some s =>
      by_cases hl : data.length < s + 6
      · right; left
        simp only [ReceiveImageAndLogs.parse_logs, hf]
        rw [if_pos hl]
      · right; right
        have hok : ReceiveImageAndLogs.parse_logs data = .ok
            { count := bytesToNatBE (pySlice data (s + 4) (s + 6))
              entries := ReceiveImageAndLogs.parseEntries data (s + 6)
                  (bytesToNatBE (pySlice data (s + 4) (s + 6)))
              expected_size := 4 + 2 + bytesToNatBE (pySlice data (s + 4) (s + 6)) * 4 + 4
              actual_size := data.length - s
              complete := decide (4 + 2 + bytesToNatBE (pySlice data (s + 4) (s + 6)) * 4 + 4
                  ≤ data.length - s) && (findSubFrom data ENDmarker s).isSome
              has_end := (findSubFrom data ENDmarker s).isSome } := by
          simp only [ReceiveImageAndLogs.parse_logs, hf]
          rw [if_neg hl]
        exact ⟨_, hok, parseEntries_length_le data (s + 6) _⟩
  · decide

theorem and15_eq_mod (a : Nat) : a &&& 15 = a % 16 := by
  simpa using Nat.and_pow_two_sub_one_eq_mod a 4

theorem and7_eq_mod (a : Nat) : a &&& 7 = a % 8 := by
  simpa using Nat.and_pow_two_sub_one_eq_mod a 3

theorem and1_eq_mod (a : Nat) : a &&& 1 = a % 2 :=
  Nat.and_pow_two_sub_one_eq_mod a 1

/-- C2 counterexample: the word 0x0E000000 carries 7 in bits [27:25];
decode_log_entry reports fifo1_load = 7 from those bits, while
parse_log_entry in python_correct.py, fed the same four wire bytes,
reports fifo1_load = 0 (it reads bits [21:19]), so the decoders do not
all use the same positions. -/
theorem c2_counterexample :
    (ReceiveImageAndLogs.decode_log_entry 234881024).fifo1_load = 7 ∧
    (PythonCorrect.parse_log_entry [14, 0, 0, 0]).fifo1_load = 0 ∧
    bytesToNatBE [14, 0, 0, 0] = 234881024 := by
  decide

/-- C2 (amended): decode_log_entry (and the decoders in
receive_logs_then_image.py, complete_receiver.py and extended_test.py)
extract the fields at the spec's positions, but parse_log_entry in
python_correct.py assigns fifo1_load to bits [21:19], fifo3_load to
bits [27:25] and the core0..core3 dividers to bits [6:3], [10:7],
[14:11], [18:15] respectively, so not every decoder in the repository
uses the same positions. -/
theorem c2_amended_positions (w : Nat) (hw : w < 4294967296) :
    ((ReceiveImageAndLogs.decode_log_entry w).core_busy = (w >>> 28) &&& 15 ∧
     (ReceiveImageAndLogs.decode_log_entry w).fifo1_load = (w >>> 25) &&& 7 ∧
     (ReceiveImageAndLogs.decode_log_entry w).fifo2_load = (w >>> 22) &&& 7 ∧
     (ReceiveImageAndLogs.decode_log_entry w).fifo3_load = (w >>> 19) &&& 7 ∧
     (ReceiveImageAndLogs.decode_log_entry w).core0_divider = (w >>> 15) &&& 15 ∧
     (ReceiveImageAndLogs.decode_log_entry w).core1_divider = (w >>> 11) &&& 15 ∧
     (ReceiveImageAndLogs.decode_log_entry w).core2_divider = (w >>> 7) &&& 15 ∧
     (ReceiveImageAndLogs.decode_log_entry w).core3_divider = (w >>> 3) &&& 15) ∧
    ((ReceiveLogsThenImage.decode_log_entry w).core_busy = (w >>> 28) &&& 15 ∧
     (ReceiveLogsThenImage.decode_log_entry w).fifo1_load = (w >>> 25) &&& 7 ∧
     (ReceiveLogsThenImage.decode_log_entry w).fifo2_load = (w >>> 22) &&& 7 ∧
     (ReceiveLogsThenImage.decode_log_entry w).fifo3_load = (w >>> 19) &&& 7 ∧
     (ReceiveLogsThenImage.decode_log_entry w).core0_div = (w >>> 15) &&& 15 ∧
     (ReceiveLogsThenImage.decode_log_entry w).core1_div = (w >>> 11) &&& 15 ∧
     (ReceiveLogsThenImage.decode_log_entry w).core2_div = (w >>> 7) &&& 15 ∧
     (ReceiveLogsThenImage.decode_log_entry w).core3_div = (w >>> 3) &&& 15 ∧
     (CompleteReceiver.decode_log_entry w).core_busy = (w >>> 28) &&& 15 ∧
     (CompleteReceiver.decode_log_entry w).fifo1_load = (w >>> 25) &&& 7 ∧
     (CompleteReceiver.decode_log_entry w).fifo2_load = (w >>> 22) &&& 7 ∧
     (CompleteReceiver.decode_log_entry w).fifo3_load = (w >>> 19) &&& 7 ∧
     (CompleteReceiver.decode_log_entry w).core0_div = (w >>> 15) &&& 15 ∧
     (CompleteReceiver.decode_log_entry w).core1_div = (w >>> 11) &&& 15 ∧
     (CompleteReceiver.decode_log_entry w).core2_div = (w >>> 7) &&& 15 ∧
     (CompleteReceiver.decode_log_entry w).core3_div = (w >>> 3) &&& 15 ∧
     (ExtendedTest.decodeFields w).core_busy = (w >>> 28) &&& 15 ∧
     (ExtendedTest.decodeFields w).fifo1_load = (w >>> 25) &&& 7 ∧
     (ExtendedTest.decodeFields w).fifo2_load = (w >>> 22) &&& 7 ∧
     (ExtendedTest.decodeFields w).fifo3_load = (w >>> 19) &&& 7 ∧
     (ExtendedTest.decodeFields w).core0_div = (w >>> 15) &&& 15 ∧
     (ExtendedTest.decodeFields w).core1_div = (w >>> 11) &&& 15 ∧
     (ExtendedTest.decodeFields w).core2_div = (w >>> 7) &&& 15 ∧
     (ExtendedTest.decodeFields w).core3_div = (w >>> 3) &&& 15) ∧
    ((PythonCorrect.parse_log_entry (beBytes4 w)).fifo1_load = (w >>> 19) &&& 7 ∧
     (PythonCorrect.parse_log_entry (beBytes4 w)).fifo3_load = (w >>> 25) &&& 7 ∧
     (PythonCorrect.parse_log_entry (beBytes4 w)).core0_divider = (w >>> 3) &&& 15 ∧
     (PythonCorrect.parse_log_entry (beBytes4 w)).core1_divider = (w >>> 7) &&& 15 ∧
     (PythonCorrect.parse_log_entry (beBytes4 w)).core2_divider = (w >>> 11) &&& 15 ∧
     (PythonCorrect.parse_log_entry (beBytes4 w)).core3_divider = (w >>> 15) &&& 15) := by
  have hb : bytesToNatBE (beBytes4 w) = w := bytesToNatBE_beBytes4 hw
  refine ⟨⟨rfl, rfl, rfl, rfl, rfl, rfl, rfl, rfl⟩,
    ⟨rfl, rfl, rfl, rfl, rfl, rfl, rfl, rfl,
     rfl, rfl, rfl, rfl, rfl, rfl, rfl, rfl,
     rfl, rfl, rfl, rfl, rfl, rfl, rfl, rfl⟩, ?_⟩
  simp only [PythonCorrect.parse_log_entry, hb]
  exact ⟨trivial, trivial, trivial, trivial, trivial, trivial⟩

/-- Witness: C2 (amended) applied to the word 0x12345678. -/
theorem c2_amended_positions_witness :
    305419896 < 4294967296 ∧
    (PythonCorrect.parse_log_entry (beBytes4 305419896)).fifo1_load
      = (305419896 >>> 19) &&& 7 :=
  ⟨by decide, (c2_amended_positions 305419896 (by decide)).2.2.1⟩

/-- C6: with every field within its declared width the spec's
BitfieldCodec round-trips exactly through the source decoders
(decode_log_entry for the eight shared fields, complete_receiver's
decode_log_entry for rl_enabled), and for arbitrary field values encode
masks each field to its width, so decoding the packed word reproduces
every field after masking — encoding is total and never rejects input. -/
theorem c6_roundtrip (cb f1 f2 f3 d0 d1 d2 d3 rl : Nat) :
    ((ReceiveImageAndLogs.decode_log_entry
        (encode_entry cb f1 f2 f3 d0 d1 d2 d3 rl)).core_busy = cb &&& 15 ∧
     (ReceiveImageAndLogs.decode_log_entry
        (encode_entry cb f1 f2 f3 d0 d1 d2 d3 rl)).fifo1_load = f1 &&& 7 ∧
     (ReceiveImageAndLogs.decode_log_entry
        (encode_entry cb f1 f2 f3 d0 d1 d2 d3 rl)).fifo2_load = f2 &&& 7 ∧
     (ReceiveImageAndLogs.decode_log_entry
        (encode_entry cb f1 f2 f3 d0 d1 d2 d3 rl)).fifo3_load = f3 &&& 7 ∧
     (ReceiveImageAndLogs.decode_log_entry
        (encode_entry cb f1 f2 f3 d0 d1 d2 d3 rl)).core0_divider = d0 &&& 15 ∧
     (ReceiveImageAndLogs.decode_log_entry
        (encode_entry cb f1 f2 f3 d0 d1 d2 d3 rl)).core1_divider = d1 &&& 15 ∧
     (ReceiveImageAndLogs.decode_log_entry
        (encode_entry cb f1 f2 f3 d0 d1 d2 d3 rl)).core2_divider = d2 &&& 15 ∧
     (ReceiveImageAndLogs.decode_log_entry
        (encode_entry cb f1 f2 f3 d0 d1 d2 d3 rl)).core3_divider = d3 &&& 15 ∧
     (CompleteReceiver.decode_log_entry
        (encode_entry cb f1 f2 f3 d0 d1 d2 d3 rl)).rl_enabled = rl &&& 1) ∧
    (cb < 16 → f1 < 8 → f2 < 8 → f3 < 8 → d0 < 16 → d1 < 16 → d2 < 16 →
      d3 < 16 → rl < 2 →
      ((ReceiveImageAndLogs.decode_log_entry
          (encode_entry cb f1 f2 f3 d0 d1 d2 d3 rl)).core_busy = cb ∧
       (ReceiveImageAndLogs.decode_log_entry
          (encode_entry cb f1 f2 f3 d0 d1 d2 d3 rl)).fifo1_load = f1 ∧
       (ReceiveImageAndLogs.decode_log_entry
          (encode_entry cb f1 f2 f3 d0 d1 d2 d3 rl)).fifo2_load = f2 ∧
       (ReceiveImageAndLogs.decode_log_entry
          (encode_entry cb f1 f2 f3 d0 d1 d2 d3 rl)).fifo3_load = f3 ∧
       (ReceiveImageAndLogs.decode_log_entry
          (encode_entry cb f1 f2 f3 d0 d1 d2 d3 rl)).core0_divider = d0 ∧
       (ReceiveImageAndLogs.decode_log_entry
          (encode_entry cb f1 f2 f3 d0 d1 d2 d3 rl)).core1_divider = d1 ∧
       (ReceiveImageAndLogs.decode_log_entry
          (encode_entry cb f1 f2 f3 d0 d1 d2 d3 rl)).core2_divider = d2 ∧
       (ReceiveImageAndLogs.decode_log_entry
          (encode_entry cb f1 f2 f3 d0 d1 d2 d3 rl)).core3_divider = d3 ∧
       (CompleteReceiver.decode_log_entry
          (encode_entry cb f1 f2 f3 d0 d1 d2 d3 rl)).rl_enabled = rl)) := by
  have hval : encode_entry cb f1 f2 f3 d0 d1 d2 d3 rl
      = (cb % 16) * 2 ^ 28 + (f1 % 8) * 2 ^ 25 + (f2 % 8) * 2 ^ 22
        + (f3 % 8) * 2 ^ 19 + (d0 % 16) * 2 ^ 15 + (d1 % 16) * 2 ^ 11
        + (d2 % 16) * 2 ^ 7 + (d3 % 16) * 2 ^ 3 + (rl % 2) * 2 ^ 2 := by
    simp only [encode_entry, Nat.shiftLeft_eq, and15_eq_mod, and7_eq_mod, and1_eq_mod]
  constructor
  · refine ⟨?_, ?_, ?_, ?_, ?_, ?_, ?_, ?_, ?_⟩ <;>
      simp only [ReceiveImageAndLogs.decode_log_entry,
        CompleteReceiver.decode_log_entry, and15_eq_mod, and7_eq_mod, and1_eq_mod,
        Nat.shiftRight_eq_div_pow, hval] <;>
      omega
  · intro h1 h2 h3 h4 h5 h6 h7 h8 h9
    refine ⟨?_, ?_, ?_, ?_, ?_, ?_, ?_, ?_, ?_⟩ <;>
      simp only [ReceiveImageAndLogs.decode_log_entry,
        CompleteReceiver.decode_log_entry, and15_eq_mod, and7_eq_mod, and1_eq_mod,
        Nat.shiftRight_eq_div_pow, hval] <;>
      omega

/-- Witness: C6 applied to in-range field values (5,3,2,1,4,6,7,8,1). -/
theorem c6_roundtrip_witness :
    (5 < 16 ∧ 3 < 8 ∧ 2 < 8 ∧ 1 < 8 ∧ 4 < 16 ∧ 6 < 16 ∧ 7 < 16 ∧ 8 < 16 ∧ 1 < 2) ∧
    ((ReceiveImageAndLogs.decode_log_entry
        (encode_entry 5 3 2 1 4 6 7 8 1)).core_busy = 5 ∧
     (ReceiveImageAndLogs.decode_log_entry
        (encode_entry 5 3 2 1 4 6 7 8 1)).fifo1_load = 3 ∧
     (ReceiveImageAndLogs.decode_log_entry
        (encode_entry 5 3 2 1 4 6 7 8 1)).fifo2_load = 2 ∧
     (ReceiveImageAndLogs.decode_log_entry
        (encode_entry 5 3 2 1 4 6 7 8 1)).fifo3_load = 1 ∧
     (ReceiveImageAndLogs.decode_log_entry
        (encode_entry 5 3 2 1 4 6 7 8 1)).core0_divider = 4 ∧
     (ReceiveImageAndLogs.decode_log_entry
        (encode_entry 5 3 2 1 4 6 7 8 1)).core1_divider = 6 ∧
     (ReceiveImageAndLogs.decode_log_entry
        (encode_entry 5 3 2 1 4 6 7 8 1)).core2_divider = 7 ∧
     (ReceiveImageAndLogs.decode_log_entry
        (encode_entry 5 3 2 1 4 6 7 8 1)).core3_divider = 8 ∧
     (CompleteReceiver.decode_log_entry
        (encode_entry 5 3 2 1 4 6 7 8 1)).rl_enabled = 1) :=
  ⟨by decide,
    (c6_roundtrip 5 3 2 1 4 6 7 8 1).2 (by decide) (by decide) (by decide)
      (by decide) (by decide) (by decide) (by decide) (by decide) (by decide)⟩

/-- C10: the three duplicated per-entry decoders — decode_log_entry in
receive_image_and_logs.py, decode_log_entry in receive_logs_then_image.py
and the inline extraction in extended_test.py — compute identical values
for every shared field on every word. -/
theorem c10_decoders_agree (w : Nat) :
    ((ReceiveImageAndLogs.decode_log_entry w).core_busy
        = (ReceiveLogsThenImage.decode_log_entry w).core_busy ∧
     (ReceiveImageAndLogs.decode_log_entry w).fifo1_load
        = (ReceiveLogsThenImage.decode_log_entry w).fifo1_load ∧
     (ReceiveImageAndLogs.decode_log_entry w).fifo2_load
        = (ReceiveLogsThenImage.decode_log_entry w).fifo2_load ∧
     (ReceiveImageAndLogs.decode_log_entry w).fifo3_load
        = (ReceiveLogsThenImage.decode_log_entry w).fifo3_load ∧
     (ReceiveImageAndLogs.decode_log_entry w).core0_divider
        = (ReceiveLogsThenImage.decode_log_entry w).core0_div ∧
     (ReceiveImageAndLogs.decode_log_entry w).core1_divider
        = (ReceiveLogsThenImage.decode_log_entry w).core1_div ∧
     (ReceiveImageAndLogs.decode_log_entry w).core2_divider
        = (ReceiveLogsThenImage.decode_log_entry w).core2_div ∧
     (ReceiveImageAndLogs.decode_log_entry w).core3_divider
        = (ReceiveLogsThenImage.decode_log_entry w).core3_div) ∧
    ((ReceiveLogsThenImage.decode_log_entry w).core_busy
        = (ExtendedTest.decodeFields w).core_busy ∧
     (ReceiveLogsThenImage.decode_log_entry w).fifo1_load
        = (ExtendedTest.decodeFields w).fifo1_load ∧
     (ReceiveLogsThenImage.decode_log_entry w).fifo2_load
        = (ExtendedTest.decodeFields w).fifo2_load ∧
     (ReceiveLogsThenImage.decode_log_entry w).fifo3_load
        = (ExtendedTest.decodeFields w).fifo3_load ∧
     (ReceiveLogsThenImage.decode_log_entry w).core0_div
        = (ExtendedTest.decodeFields w).core0_div ∧
     (ReceiveLogsThenImage.decode_log_entry w).core1_div
        = (ExtendedTest.decodeFields w).core1_div ∧
     (ReceiveLogsThenImage.decode_log_entry w).core2_div
        = (ExtendedTest.decodeFields w).core2_div ∧
     (ReceiveLogsThenImage.decode_log_entry w).core3_div
        = (ExtendedTest.decodeFields w).core3_div) :=
  ⟨⟨rfl, rfl, rfl, rfl, rfl, rfl, rfl, rfl⟩,
   ⟨rfl, rfl, rfl, rfl, rfl, rfl, rfl, rfl⟩⟩
